import Mathlib

/-
Verification of the vgit virtual-branch ledger (src/app/virtual_branch.py and
src/app/commands/) against its natural-language specification.

The embedding is shallow: Python dicts become association lists that keep
insertion order (assignment updates in place, new keys append, del removes the
entry), in-place mutation of the manager becomes explicit state passing, and a
Python method that can raise returns the pair of an optional error and the
state as it stood when the exception was raised.  Timestamps (Python floats
produced by datetime.now().timestamp() and git commit dates) are modelled as
abstract integer ticks passed in explicitly; no claim computes with them.
-/

set_option autoImplicit false

namespace VGit

/-- Lookup in a Python dict modelled as an ordered association list
(first entry with the key wins; keys are unique in every reachable state). -/
def dictFind? {α : Type} : List (String × α) → String → Option α
  | [], _ => none
  | (k, v) :: rest, key => if k = key then some v else dictFind? rest key

/-- Membership test, Python `key in d`. -/
def dictContains {α : Type} (m : List (String × α)) (key : String) : Bool :=
  (dictFind? m key).isSome

/-- Python dict assignment `d[key] = v`: updates the existing entry in place,
otherwise appends the new entry at the end. -/
def dictInsert {α : Type} : List (String × α) → String → α → List (String × α)
  | [], key, v => [(key, v)]
  | (k, w) :: rest, key, v =>
      if k = key then (k, v) :: rest else (k, w) :: dictInsert rest key v

/-- Python `del d[key]` / `d.pop(key)`: removes the entry with the key. -/
def dictErase {α : Type} : List (String × α) → String → List (String × α)
  | [], _ => []
  | (k, v) :: rest, key => if k = key then rest else (k, v) :: dictErase rest key

/-- Values stored in a Commit metadata mapping.  The metadata dict built by
VirtualBranchManager.create_commit holds only strings (git_commit, committer,
committer_email) and integer dates (authored_date, committed_date). -/
inductive MetaVal where
  | s (v : String)
  | n (v : Int)
deriving DecidableEq, Repr

/-- Commit (pydantic model in src/app/virtual_branch.py): immutable mirror of
one real commit.  Fields in declaration order: id, message, author, timestamp,
parent_ids, metadata. -/
structure Commit where
  id : String
  message : String
  author : String
  timestamp : Int
  parent_ids : List String
  metadata : List (String × MetaVal)
deriving DecidableEq, Repr

/-- VirtualBranch (pydantic model): a named lineage of commits plus the name of
the branch it was derived from. -/
structure VirtualBranch where
  name : String
  base_branch : String
  commits : List Commit
  created_at : Int
  updated_at : Int
deriving DecidableEq, Repr

/-- VirtualBranch.add_commit: append the commit and refresh updated_at. -/
def VirtualBranch.add_commit (b : VirtualBranch) (c : Commit) (now : Int) : VirtualBranch :=
  { b with commits := b.commits ++ [c], updated_at := now }

/-- The mutable state of a VirtualBranchManager that the ledger persists:
the branches dict and the current-branch pointer. -/
structure VBMState where
  branches : List (String × VirtualBranch)
  current_branch : Option String
deriving DecidableEq, Repr

/-- Error taxonomy of the classified VGitError raise sites (plus keyErr for
the unclassified Python KeyError that branches[current] would raise, and
emptyBranchName for the CLI check on an empty rename target). -/
inductive VGitErr where
  | branchAlreadyExists
  | branchNotFound
  | cannotDeleteActiveBranch
  | noActiveBranch
  | notARepository
  | noChangesToCommit
  | emptyBranchName
  | keyErr
deriving DecidableEq, Repr

/-- Store seeded by _load_state when no ledger file exists: a single default
main branch (whose base_branch field takes the pydantic default, also main)
and current_branch set to main. -/
def bootstrapStore (now : Int) : VBMState :=
  { branches := [("main",
      { name := "main", base_branch := "main", commits := [],
        created_at := now, updated_at := now })],
    current_branch := some "main" }

/-- VirtualBranchManager.create_branch: reject an existing name, reject a
missing base, otherwise snapshot-copy the base branch commit list into the new
branch and make it current.  The error component carries the state at the
moment the exception is raised. -/
def create_branch (st : VBMState) (branch_name : String) (base_branch : String)
    (now : Int) : Option VGitErr × VBMState :=
  if dictContains st.branches branch_name then
    (some .branchAlreadyExists, st)
  else
    match dictFind? st.branches base_branch with
    | none => (some .branchNotFound, st)
    | some base_branch_obj =>
        let new_branch : VirtualBranch :=
          { name := branch_name, base_branch := base_branch,
            commits := base_branch_obj.commits,
            created_at := now, updated_at := now }
        (none, { branches := dictInsert st.branches branch_name new_branch,
                 current_branch := some branch_name })

/-- VirtualBranchManager.switch_branch: reject a missing name, otherwise move
the current-branch pointer. -/
def switch_branch (st : VBMState) (branch_name : String) : Option VGitErr × VBMState :=
  if !dictContains st.branches branch_name then
    (some .branchNotFound, st)
  else
    (none, { st with current_branch := some branch_name })

/-- Branch creation path of the branch CLI command (src/app/commands/branch.py):
an extra existence check, then create_branch with the base argument left at its
default, which is the literal string main and not the current branch. -/
def branch_create_cli (st : VBMState) (branchname : String) (now : Int) :
    Option VGitErr × VBMState :=
  if dictContains st.branches branchname then
    (some .branchAlreadyExists, st)
  else
    create_branch st branchname "main" now

/-- Branch deletion path of the branch CLI command: missing name is rejected
first, then deleting the current branch is refused (there is no force flag in
the command), otherwise the entry is removed. -/
def branch_delete_cli (st : VBMState) (branchname : String) : Option VGitErr × VBMState :=
  if !dictContains st.branches branchname then
    (some .branchNotFound, st)
  else if st.current_branch = some branchname then
    (some .cannotDeleteActiveBranch, st)
  else
    (none, { st with branches := dictErase st.branches branchname })

/-- Branch rename path of the branch CLI command: empty target rejected, then
existing target rejected, then missing source rejected; on success the entry is
popped, its name field updated, reinserted under the new key, and the
current-branch pointer is moved along when it named the source. -/
def branch_rename_cli (st : VBMState) (branchname new_name : String) :
    Option VGitErr × VBMState :=
  if new_name = "" then
    (some .emptyBranchName, st)
  else if dictContains st.branches new_name then
    (some .branchAlreadyExists, st)
  else
    match dictFind? st.branches branchname with
    | none => (some .branchNotFound, st)
    | some br =>
        let branches2 := dictInsert (dictErase st.branches branchname) new_name
          { br with name := new_name }
        let cur := if st.current_branch = some branchname then some new_name
          else st.current_branch
        (none, { branches := branches2, current_branch := cur })

/-- One branch lifecycle operation, covering both the manager-level create with
an explicit base and the CLI paths. -/
inductive LifecycleOp where
  | create (name base : String) (now : Int)
  | createCli (name : String) (now : Int)
  | switch (name : String)
  | delete (name : String)
  | rename (old new : String)
deriving DecidableEq, Repr

/-- Dispatch one lifecycle operation. -/
def applyLifecycle (st : VBMState) (op : LifecycleOp) : Option VGitErr × VBMState :=
  match op with
  | .create n b now => create_branch st n b now
  | .createCli n now => branch_create_cli st n now
  | .switch n => switch_branch st n
  | .delete n => branch_delete_cli st n
  | .rename o n => branch_rename_cli st o n

/-- State after one operation; a raised error leaves the manager object with
the state it had at the raise point, and the caller carries on with it. -/
def stepOp (st : VBMState) (op : LifecycleOp) : VBMState :=
  (applyLifecycle st op).2

/-- Run a whole sequence of lifecycle operations. -/
def runOps (st : VBMState) (ops : List LifecycleOp) : VBMState :=
  ops.foldl stepOp st

/-- Branch-name keys of the store are pairwise distinct. -/
def keysNodup (st : VBMState) : Prop :=
  (st.branches.map Prod.fst).Nodup

/-- The current-branch pointer, when set, names a branch present in the store. -/
def currentValid (st : VBMState) : Prop :=
  ∀ c, st.current_branch = some c → dictContains st.branches c = true

/-- The Branch Store invariant of the specification. -/
def StoreInv (st : VBMState) : Prop :=
  keysNodup st ∧ currentValid st

theorem dictContains_iff_mem {α : Type} :
    ∀ (m : List (String × α)) (k : String),
      dictContains m k = true ↔ k ∈ m.map Prod.fst := by
  intro m k
  induction m with
  | nil => simp [dictContains, dictFind?]
  | cons head rest ih =>
      obtain ⟨a, w⟩ := head
      by_cases hak : a = k
      · subst hak
        simp [dictContains, dictFind?]
      · simp only [dictContains, dictFind?, if_neg hak, List.map_cons, List.mem_cons]
        rw [dictContains] at ih
        rw [ih]
        constructor
        · exact fun h => Or.inr h
        · rintro (h | h)
          · exact absurd h.symm hak
          · exact h

theorem dictFind?_insert {α : Type} (k j : String) (v : α) :
    ∀ m : List (String × α),
      dictFind? (dictInsert m k v) j = if k = j then some v else dictFind? m j := by
  intro m
  induction m with
  | nil => simp [dictInsert, dictFind?]
  | cons head rest ih =>
      obtain ⟨a, w⟩ := head
      by_cases hak : a = k
      · subst hak
        by_cases haj : a = j
        · subst haj
          simp [dictInsert, dictFind?]
        · simp [dictInsert, dictFind?, haj]
      · by_cases haj : a = j
        · subst haj
          have hkj : ¬ k = a := fun h => hak h.symm
          simp [dictInsert, dictFind?, hak, hkj]
        · simp [dictInsert, dictFind?, hak, haj, ih]

theorem dictFind?_erase {α : Type} (k j : String) (h : j ≠ k) :
    ∀ m : List (String × α), dictFind? (dictErase m k) j = dictFind? m j := by
  intro m
  induction m with
  | nil => simp [dictErase]
  | cons head rest ih =>
      obtain ⟨a, w⟩ := head
      by_cases hak : a = k
      · subst hak
        have haj : ¬ a = j := fun hj => h (hj.symm.trans rfl)
        simp [dictErase, dictFind?, haj]
      · by_cases haj : a = j
        · subst haj
          simp [dictErase, dictFind?, hak]
        · simp [dictErase, dictFind?, hak, haj, ih]

theorem keys_insert_of_not_mem {α : Type} (k : String) (v : α) :
    ∀ m : List (String × α), k ∉ m.map Prod.fst →
      (dictInsert m k v).map Prod.fst = m.map Prod.fst ++ [k] := by
  intro m
  induction m with
  | nil => simp [dictInsert]
  | cons head rest ih =>
      obtain ⟨a, w⟩ := head
      intro hk
      simp only [List.map_cons, List.mem_cons] at hk
      push_neg at hk
      have hak : ¬ a = k := fun h => hk.1 h.symm
      simp [dictInsert, hak, ih hk.2]

theorem keys_erase_sublist {α : Type} (k : String) :
    ∀ m : List (String × α),
      ((dictErase m k).map Prod.fst).Sublist (m.map Prod.fst) := by
  intro m
  induction m with
  | nil => simp [dictErase]
  | cons head rest ih =>
      obtain ⟨a, w⟩ := head
      by_cases hak : a = k
      · simp only [dictErase, if_pos hak, List.map_cons]
        exact List.sublist_cons_self _ _
      · simp only [dictErase, if_neg hak, List.map_cons]
        exact ih.cons₂ a

theorem dictContains_false_not_mem {α : Type} (m : List (String × α)) (k : String)
    (h : dictContains m k = false) : k ∉ m.map Prod.fst := by
  intro hmem
  rw [← dictContains_iff_mem] at hmem
  rw [h] at hmem
  exact Bool.false_ne_true hmem

theorem dictContains_insert_self {α : Type} (m : List (String × α)) (k : String) (v : α) :
    dictContains (dictInsert m k v) k = true := by
  unfold dictContains
  rw [dictFind?_insert]
  simp

theorem storeInv_create (st : VBMState) (n b : String) (now : Int) (h : StoreInv st) :
    StoreInv (create_branch st n b now).2 := by
  obtain ⟨hnd, hcur⟩ := h
  unfold create_branch
  cases hc : dictContains st.branches n with
  | true => simpa [hc] using And.intro hnd hcur
  | false =>
      cases hfb : dictFind? st.branches b with
      | none => simpa [hc, hfb] using And.intro hnd hcur
      | some base =>
          have hnot : n ∉ st.branches.map Prod.fst := dictContains_false_not_mem _ _ hc
          constructor
          · unfold keysNodup at hnd ⊢
            simp only [hc, Bool.false_eq_true, if_false, hfb]
            rw [keys_insert_of_not_mem n _ st.branches hnot]
            simp [List.nodup_append, hnd, hnot]
          · intro c hcc
            simp only [hc, Bool.false_eq_true, if_false, hfb] at hcc ⊢
            obtain rfl : n = c := by simpa using hcc
            exact dictContains_insert_self _ _ _

theorem storeInv_create_cli (st : VBMState) (n : String) (now : Int) (h : StoreInv st) :
    StoreInv (branch_create_cli st n now).2 := by
  unfold branch_create_cli
  cases hc : dictContains st.branches n with
  | true => simpa [hc] using h
  | false =>
      simp only [hc, Bool.false_eq_true, if_false]
      exact storeInv_create st n "main" now h

theorem storeInv_switch (st : VBMState) (n : String) (h : StoreInv st) :
    StoreInv (switch_branch st n).2 := by
  obtain ⟨hnd, hcur⟩ := h
  unfold switch_branch
  cases hc : dictContains st.branches n with
  | false => simpa [hc] using And.intro hnd hcur
  | true =>
      refine ⟨hnd, ?_⟩
      intro c hcc
      have hcc2 : some n = some c := hcc
      obtain rfl : n = c := by simpa using hcc2
      exact hc

theorem storeInv_delete (st : VBMState) (n : String) (h : StoreInv st) :
    StoreInv (branch_delete_cli st n).2 := by
  obtain ⟨hnd, hcur⟩ := h
  unfold branch_delete_cli
  cases hc : dictContains st.branches n with
  | false => simpa [hc] using And.intro hnd hcur
  | true =>
      by_cases hcb : st.current_branch = some n
      · simpa [hc, hcb] using And.intro hnd hcur
      · constructor
        · unfold keysNodup at hnd ⊢
          simp only [hc, Bool.not_true, Bool.false_eq_true, if_false, if_neg hcb]
          exact hnd.sublist (keys_erase_sublist n st.branches)
        · intro c hcc
          simp only [hc, Bool.not_true, Bool.false_eq_true, if_false, if_neg hcb] at hcc ⊢
          have hcn : c ≠ n := by
            intro hrfl
            exact hcb (by rw [← hrfl]; exact hcc)
          unfold dictContains
          rw [dictFind?_erase n c hcn]
          exact hcur c hcc

theorem storeInv_rename (st : VBMState) (o n : String) (h : StoreInv st) :
    StoreInv (branch_rename_cli st o n).2 := by
  obtain ⟨hnd, hcur⟩ := h
  unfold branch_rename_cli
  by_cases hne : n = ""
  · simpa [hne] using And.intro hnd hcur
  · cases hc : dictContains st.branches n with
    | true => simpa [hne, hc] using And.intro hnd hcur
    | false =>
        cases hfo : dictFind? st.branches o with
        | none => simpa [hne, hc, hfo] using And.intro hnd hcur
        | some br =>
            have hnotn : n ∉ st.branches.map Prod.fst := dictContains_false_not_mem _ _ hc
            have hnotn2 : n ∉ (dictErase st.branches o).map Prod.fst := fun hmem =>
              hnotn ((keys_erase_sublist o st.branches).mem hmem)
            constructor
            · unfold keysNodup at hnd ⊢
              simp only [hne, hc, Bool.false_eq_true, if_false, hfo]
              rw [keys_insert_of_not_mem n _ _ hnotn2]
              have hsub := (keys_erase_sublist o st.branches).nodup hnd
              simp [List.nodup_append, hsub, hnotn2]
            · intro c hcc
              simp only [hne, hc, Bool.false_eq_true, if_false, hfo] at hcc ⊢
              by_cases hcb : st.current_branch = some o
              · rw [if_pos hcb] at hcc
                obtain rfl : n = c := by simpa using hcc
                exact dictContains_insert_self _ _ _
              · rw [if_neg hcb] at hcc
                have hco : c ≠ o := by
                  intro hrfl
                  exact hcb (by rw [← hrfl]; exact hcc)
                have hcn : ¬ n = c := by
                  intro hrfl
                  have hthis := hcur c hcc
                  rw [← hrfl, hc] at hthis
                  exact Bool.false_ne_true hthis
                unfold dictContains
                rw [dictFind?_insert, if_neg hcn, dictFind?_erase o c hco]
                exact hcur c hcc

theorem storeInv_step (st : VBMState) (op : LifecycleOp) (h : StoreInv st) :
    StoreInv (stepOp st op) := by
  cases op with
  | create n b now => exact storeInv_create st n b now h
  | createCli n now => exact storeInv_create_cli st n now h
  | switch n => exact storeInv_switch st n h
  | delete n => exact storeInv_delete st n h
  | rename o n => exact storeInv_rename st o n h

theorem storeInv_bootstrap (now : Int) : StoreInv (bootstrapStore now) := by
  constructor
  · simp [keysNodup, bootstrapStore]
  · intro c hc
    simp only [bootstrapStore] at hc
    obtain rfl : "main" = c := by simpa using hc
    simp [bootstrapStore, dictContains, dictFind?]

theorem runOps_inv : ∀ (ops : List LifecycleOp) (st : VBMState), StoreInv st →
    StoreInv (runOps st ops) := by
  intro ops
  induction ops with
  | nil => exact fun st h => h
  | cons op rest ih =>
      intro st h
      exact ih (stepOp st op) (storeInv_step st op h)

/-- C1: starting from the bootstrapped Branch Store, after every sequence of
branch lifecycle operations (create, rename, delete, and also switch), the
branch-name keys are pairwise distinct and the current-branch pointer, when
set, names a branch present in the branches mapping; a failed operation leaves
the state at its raise point and the invariant is preserved there too. -/
theorem c1_lifecycle_preserves_store_invariant (now : Int) (ops : List LifecycleOp) :
    StoreInv (runOps (bootstrapStore now) ops) :=
  runOps_inv ops (bootstrapStore now) (storeInv_bootstrap now)

theorem create_branch_err_frame (st : VBMState) (n b : String) (now : Int) (e : VGitErr)
    (h : (create_branch st n b now).1 = some e) : (create_branch st n b now).2 = st := by
  unfold create_branch at h ⊢
  cases hc : dictContains st.branches n with
  | true => simp [hc]
  | false =>
      cases hfb : dictFind? st.branches b with
      | none => simp [hc, hfb]
      | some base => simp [hc, hfb] at h

theorem branch_create_cli_err_frame (st : VBMState) (n : String) (now : Int) (e : VGitErr)
    (h : (branch_create_cli st n now).1 = some e) : (branch_create_cli st n now).2 = st := by
  unfold branch_create_cli at h ⊢
  cases hc : dictContains st.branches n with
  | true => simp [hc]
  | false =>
      simp only [hc, Bool.false_eq_true, if_false] at h ⊢
      exact create_branch_err_frame st n "main" now e h

theorem switch_branch_err_frame (st : VBMState) (n : String) (e : VGitErr)
    (h : (switch_branch st n).1 = some e) : (switch_branch st n).2 = st := by
  unfold switch_branch at h ⊢
  cases hc : dictContains st.branches n with
  | false => simp [hc]
  | true => simp [hc] at h

theorem branch_delete_cli_err_frame (st : VBMState) (n : String) (e : VGitErr)
    (h : (branch_delete_cli st n).1 = some e) : (branch_delete_cli st n).2 = st := by
  unfold branch_delete_cli at h ⊢
  cases hc : dictContains st.branches n with
  | false => simp [hc]
  | true =>
      by_cases hcb : st.current_branch = some n
      · simp [hc, hcb]
      · simp [hc, hcb] at h

theorem branch_rename_cli_err_frame (st : VBMState) (o n : String) (e : VGitErr)
    (h : (branch_rename_cli st o n).1 = some e) : (branch_rename_cli st o n).2 = st := by
  unfold branch_rename_cli at h ⊢
  by_cases hne : n = ""
  · simp [hne]
  · cases hc : dictContains st.branches n with
    | true => simp [hne, hc]
    | false =>
        cases hfo : dictFind? st.branches o with
        | none => simp [hne, hc, hfo]
        | some br => simp [hne, hc, hfo] at h

/-- C10: branch lifecycle operations are atomic on the ledger state: whenever
create, switch, rename, or delete raises a classified error, the branches
mapping and the current-branch pointer are exactly as they were before the
call (every check in the source precedes every mutation). -/
theorem c10_lifecycle_error_leaves_state_unchanged (st : VBMState) (op : LifecycleOp)
    (e : VGitErr) (h : (applyLifecycle st op).1 = some e) :
    (applyLifecycle st op).2 = st := by
  cases op with
  | create n b now => exact create_branch_err_frame st n b now e h
  | createCli n now => exact branch_create_cli_err_frame st n now e h
  | switch n => exact switch_branch_err_frame st n e h
  | delete n => exact branch_delete_cli_err_frame st n e h
  | rename o n => exact branch_rename_cli_err_frame st o n e h

/-- Witness for C10 at a concrete input: creating main over the bootstrapped
store fails and leaves the store unchanged. -/
theorem c10_lifecycle_error_leaves_state_unchanged_witness :
    (applyLifecycle (bootstrapStore 0) (.createCli "main" 1)).2 = bootstrapStore 0 :=
  c10_lifecycle_error_leaves_state_unchanged (bootstrapStore 0) (.createCli "main" 1)
    .branchAlreadyExists (by decide)

/-- C7: deleting the branch named by the current-branch pointer always fails
with the cannot-delete-active-branch condition (the branch CLI command has no
force flag at all, so no flag can bypass the check) and the branch remains in
the store. -/
theorem c7_delete_active_branch_refused (st : VBMState) (name : String)
    (hcur : st.current_branch = some name)
    (hmem : dictContains st.branches name = true) :
    branch_delete_cli st name = (some .cannotDeleteActiveBranch, st) ∧
      dictContains (branch_delete_cli st name).2.branches name = true := by
  unfold branch_delete_cli
  simp [hmem, hcur]

/-- Witness for C7: deleting main on the bootstrapped store. -/
theorem c7_delete_active_branch_refused_witness :
    branch_delete_cli (bootstrapStore 0) "main" =
        (some .cannotDeleteActiveBranch, bootstrapStore 0) ∧
      dictContains (branch_delete_cli (bootstrapStore 0) "main").2.branches "main" = true :=
  c7_delete_active_branch_refused (bootstrapStore 0) "main" rfl (by decide)

/-- Appending a freshly minted Commit Record to a named branch, the way
create_commit appends to the current branch via VirtualBranch.add_commit:
the object stored under that key is updated; all other keys keep their value. -/
def addCommitTo (st : VBMState) (name : String) (c : Commit) (now : Int) : VBMState :=
  match dictFind? st.branches name with
  | none => st
  | some br =>
      { st with branches := dictInsert st.branches name (br.add_commit c now) }

theorem addCommitTo_other (st : VBMState) (name other : String) (c : Commit) (now : Int)
    (h : other ≠ name) :
    dictFind? (addCommitTo st name c now).branches other = dictFind? st.branches other := by
  unfold addCommitTo
  cases hf : dictFind? st.branches name with
  | none => rfl
  | some br =>
      simp only []
      rw [dictFind?_insert]
      exact if_neg fun hh => h hh.symm

/-- C3: after creating branch B from base A (a snapshot copy of the commit
list), appending a commit to A leaves the commit list of B unchanged, and
appending a commit to B leaves the commit list of A unchanged. -/
theorem c3_snapshot_copy_independence (st : VBMState) (A B : String) (now t1 t2 : Int)
    (c1 c2 : Commit) (hok : (create_branch st B A now).1 = none) :
    ((dictFind? (addCommitTo (create_branch st B A now).2 A c1 t1).branches B).map
        VirtualBranch.commits =
      (dictFind? (create_branch st B A now).2.branches B).map VirtualBranch.commits) ∧
    ((dictFind? (addCommitTo (create_branch st B A now).2 B c2 t2).branches A).map
        VirtualBranch.commits =
      (dictFind? (create_branch st B A now).2.branches A).map VirtualBranch.commits) := by
  have hcB : dictContains st.branches B = false := by
    cases hc : dictContains st.branches B with
    | false => rfl
    | true =>
        unfold create_branch at hok
        rw [hc] at hok
        simp at hok
  have hfA : ∃ base, dictFind? st.branches A = some base := by
    unfold create_branch at hok
    rw [hcB] at hok
    cases hfa : dictFind? st.branches A with
    | none => rw [hfa] at hok; simp at hok
    | some base => exact ⟨base, rfl⟩
  have hne : A ≠ B := by
    intro hrfl
    obtain ⟨base, hb⟩ := hfA
    have hmem : dictContains st.branches A = true := by
      unfold dictContains
      rw [hb]
      rfl
    rw [hrfl, hcB] at hmem
    exact Bool.false_ne_true hmem
  constructor
  · rw [addCommitTo_other _ _ _ _ _ (fun hh => hne hh.symm)]
  · rw [addCommitTo_other _ _ _ _ _ hne]

/-- A concrete Commit Record for witnesses. -/
def exCommitA : Commit :=
  { id := "a1", message := "first", author := "alice", timestamp := 10,
    parent_ids := [],
    metadata := [("git_commit", .s "a1"), ("committer", .s "alice"),
      ("committer_email", .s "alice@example.com"), ("authored_date", .n 10),
      ("committed_date", .n 10)] }

/-- A second concrete Commit Record for witnesses. -/
def exCommitB : Commit :=
  { id := "b2", message := "second", author := "bob", timestamp := 20,
    parent_ids := ["a1"],
    metadata := [("git_commit", .s "b2"), ("committer", .s "bob"),
      ("committer_email", .s "bob@example.com"), ("authored_date", .n 20),
      ("committed_date", .n 20)] }

/-- Witness for C3: creating feat from main on the bootstrapped store, then
appending to either branch, leaves the other untouched. -/
theorem c3_snapshot_copy_independence_witness :
    ((dictFind? (addCommitTo (create_branch (bootstrapStore 0) "feat" "main" 1).2
          "main" exCommitA 2).branches "feat").map VirtualBranch.commits =
      (dictFind? (create_branch (bootstrapStore 0) "feat" "main" 1).2.branches "feat").map
        VirtualBranch.commits) ∧
    ((dictFind? (addCommitTo (create_branch (bootstrapStore 0) "feat" "main" 1).2
          "feat" exCommitB 3).branches "main").map VirtualBranch.commits =
      (dictFind? (create_branch (bootstrapStore 0) "feat" "main" 1).2.branches "main").map
        VirtualBranch.commits) :=
  c3_snapshot_copy_independence (bootstrapStore 0) "main" "feat" 1 2 3 exCommitA exCommitB
    (by decide)

/-- Store for the C6 counterexample: the current branch feat has one commit
that main lacks. -/
def mainBranchC6 : VirtualBranch :=
  { name := "main", base_branch := "main", commits := [],
    created_at := 0, updated_at := 0 }

def featBranchC6 : VirtualBranch :=
  { name := "feat", base_branch := "main", commits := [exCommitA],
    created_at := 1, updated_at := 2 }

def exStoreC6 : VBMState :=
  { branches := [("main", mainBranchC6), ("feat", featBranchC6)],
    current_branch := some "feat" }

/-- C6 counterexample: the current branch is feat, yet creating x with no
explicit base succeeds with base main, not the current branch, and snapshots
the commits of main rather than those of feat. -/
theorem c6_counterexample_default_base_ignores_current :
    exStoreC6.current_branch = some "feat" ∧
    (branch_create_cli exStoreC6 "x" 5).1 = none ∧
    (dictFind? (branch_create_cli exStoreC6 "x" 5).2.branches "x").map
        VirtualBranch.base_branch = some "main" ∧
    ¬ ((dictFind? (branch_create_cli exStoreC6 "x" 5).2.branches "x").map
        VirtualBranch.base_branch = some "feat") ∧
    ¬ ((dictFind? (branch_create_cli exStoreC6 "x" 5).2.branches "x").map
        VirtualBranch.commits =
      (dictFind? exStoreC6.branches "feat").map VirtualBranch.commits) := by
  decide

/-- C6 amended: create with no explicit base always bases the new branch on
the literal main, regardless of the current branch; it fails with
branchAlreadyExists if the name is present and branchNotFound if main is
absent, and on success the new branch snapshots the commits of main and
current_branch becomes the new name. -/
theorem c6_create_cli_characterization (st : VBMState) (name : String) (now : Int) :
    (dictContains st.branches name = true →
      branch_create_cli st name now = (some .branchAlreadyExists, st)) ∧
    (dictContains st.branches name = false → dictFind? st.branches "main" = none →
      branch_create_cli st name now = (some .branchNotFound, st)) ∧
    (∀ mb, dictContains st.branches name = false →
      dictFind? st.branches "main" = some mb →
      branch_create_cli st name now =
        (none,
          { branches :=
              (dictInsert st.branches name
                { name := name, base_branch := "main", commits := mb.commits,
                  created_at := now, updated_at := now }),
            current_branch := some name })) := by
  refine ⟨?_, ?_, ?_⟩
  · intro h
    unfold branch_create_cli
    simp [h]
  · intro h hm
    unfold branch_create_cli create_branch
    simp [h, hm]
  · intro mb h hm
    unfold branch_create_cli create_branch
    simp [h, hm]

/-- Witness for C6 amended: creating dev on the bootstrapped store bases it on
main with an empty snapshot and makes it current. -/
theorem c6_create_cli_characterization_witness :
    branch_create_cli (bootstrapStore 0) "dev" 4 =
      (none,
        { branches :=
            (dictInsert (bootstrapStore 0).branches "dev"
              { name := "dev", base_branch := "main", commits := [],
                created_at := 4, updated_at := 4 }),
          current_branch := some "dev" }) :=
  (c6_create_cli_characterization (bootstrapStore 0) "dev" 4).2.2
    mainBranchC6 (by decide) (by decide)

/-- JSON values as written and read by json.dump/json.load in the Persistence
Layer.  Numbers carry the integer ticks that stand in for the float
timestamps. -/
inductive Json where
  | null
  | str (s : String)
  | num (n : Int)
  | arr (xs : List Json)
  | obj (fields : List (String × Json))

/-- Extract a JSON object; any other shape stands for the AttributeError or
ValidationError a dict-expecting Python site would raise. -/
def Json.asObj : Json → Option (List (String × Json))
  | .obj fields => some fields
  | _ => none

/-- Extract a JSON string, as pydantic validation of a str field does. -/
def Json.asStr : Json → Option String
  | .str s => some s
  | _ => none

/-- Extract a JSON number, as pydantic validation of a numeric field does. -/
def Json.asNum : Json → Option Int
  | .num n => some n
  | _ => none

/-- Extract a JSON array, as pydantic validation of a list field does. -/
def Json.asArr : Json → Option (List Json)
  | .arr xs => some xs
  | _ => none

/-- Serialize a metadata value. -/
def MetaVal.toJson : MetaVal → Json
  | .s v => .str v
  | .n v => .num v

/-- Validate a metadata value (strings and numbers are what create_commit
stores in the metadata dict). -/
def MetaVal.fromJson : Json → Option MetaVal
  | .str v => some (.s v)
  | .num v => some (.n v)
  | _ => none

/-- Commit.to_dict / Commit.model_dump: all fields, in declaration order. -/
def Commit.to_dict (c : Commit) : Json :=
  .obj [("id", .str c.id), ("message", .str c.message), ("author", .str c.author),
    ("timestamp", .num c.timestamp),
    ("parent_ids", .arr (c.parent_ids.map Json.str)),
    ("metadata", .obj (c.metadata.map (fun kv => (kv.1, kv.2.toJson))))]

/-- Elementwise validation of a parent_ids array. -/
def decodeStrList : List Json → Option (List String)
  | [] => some []
  | j :: rest => do
      let s ← j.asStr
      let l ← decodeStrList rest
      pure (s :: l)

/-- parent_ids field: missing means the pydantic default empty list. -/
def decodeParentIds : Option Json → Option (List String)
  | none => some []
  | some j => do
      let xs ← j.asArr
      decodeStrList xs

/-- Elementwise validation of a metadata object. -/
def decodeMeta : List (String × Json) → Option (List (String × MetaVal))
  | [] => some []
  | (k, j) :: rest => do
      let v ← MetaVal.fromJson j
      let l ← decodeMeta rest
      pure ((k, v) :: l)

/-- metadata field: missing means the pydantic default empty dict. -/
def decodeMetaField : Option Json → Option (List (String × MetaVal))
  | none => some []
  | some j => do
      let f ← j.asObj
      decodeMeta f

/-- Commit.from_dict / Commit.model_validate: id, message, author and
timestamp are required; parent_ids and metadata default to empty.  A none
result stands for the ValidationError pydantic would raise. -/
def Commit.from_dict (j : Json) : Option Commit := do
  let f ← j.asObj
  let id ← (dictFind? f "id").bind Json.asStr
  let message ← (dictFind? f "message").bind Json.asStr
  let author ← (dictFind? f "author").bind Json.asStr
  let timestamp ← (dictFind? f "timestamp").bind Json.asNum
  let parent_ids ← decodeParentIds (dictFind? f "parent_ids")
  let metadata ← decodeMetaField (dictFind? f "metadata")
  pure { id := id, message := message, author := author, timestamp := timestamp,
         parent_ids := parent_ids, metadata := metadata }

/-- VirtualBranch.to_dict / model_dump: all fields, in declaration order,
commits serialized elementwise. -/
def VirtualBranch.to_dict (b : VirtualBranch) : Json :=
  .obj [("name", .str b.name), ("base_branch", .str b.base_branch),
    ("commits", .arr (b.commits.map Commit.to_dict)),
    ("created_at", .num b.created_at), ("updated_at", .num b.updated_at)]

/-- A string field with a pydantic default for when it is missing. -/
def decodeStrOr : Option Json → String → Option String
  | none, d => some d
  | some j, _ => j.asStr

/-- A numeric field with a default for when it is missing; created_at and
updated_at default to the current clock (datetime.now default_factory). -/
def decodeNumOr : Option Json → Int → Option Int
  | none, d => some d
  | some j, _ => j.asNum

/-- Elementwise validation of a commits array, as the list comprehension in
VirtualBranch.from_dict does. -/
def decodeCommits : List Json → Option (List Commit)
  | [] => some []
  | j :: rest => do
      let c ← Commit.from_dict j
      let l ← decodeCommits rest
      pure (c :: l)

/-- commits field: missing means the pydantic default empty list. -/
def decodeCommitsField : Option Json → Option (List Commit)
  | none => some []
  | some j => do
      let xs ← j.asArr
      decodeCommits xs

/-- VirtualBranch.from_dict / model_validate: name is required; base_branch
defaults to main, commits to empty, created_at and updated_at to the current
clock tick. -/
def VirtualBranch.from_dict (j : Json) (now : Int) : Option VirtualBranch := do
  let f ← j.asObj
  let name ← (dictFind? f "name").bind Json.asStr
  let base_branch ← decodeStrOr (dictFind? f "base_branch") "main"
  let commits ← decodeCommitsField (dictFind? f "commits")
  let created_at ← decodeNumOr (dictFind? f "created_at") now
  let updated_at ← decodeNumOr (dictFind? f "updated_at") now
  pure { name := name, base_branch := base_branch, commits := commits,
         created_at := created_at, updated_at := updated_at }

/-- VirtualBranchManager._save_state: the whole store as one JSON document
with top-level current_branch and branches fields. -/
def save_state (st : VBMState) : Json :=
  .obj [("current_branch", (match st.current_branch with
      | none => Json.null
      | some c => Json.str c)),
    ("branches", .obj (st.branches.map (fun kv => (kv.1, kv.2.to_dict))))]

/-- The three ways the ledger file can present itself to _load_state: missing,
present but rejected by json.load (JSONDecodeError), or parsed to a JSON
value. -/
inductive LedgerFile where
  | absent
  | unparsable
  | parsed (j : Json)

/-- Validation of the branches mapping, name by name. -/
def decodeBranches (now : Int) : List (String × Json) → Option (List (String × VirtualBranch))
  | [] => some []
  | (k, j) :: rest => do
      let b ← VirtualBranch.from_dict j now
      let l ← decodeBranches now rest
      pure ((k, b) :: l)

/-- VirtualBranchManager._load_state.  A missing file bootstraps the default
main store; a file that json.load rejects is caught (JSONDecodeError) and
resets to the empty store with no current branch; a parsed document is decoded
field by field, where a none result stands for the exceptions the except
clause does not catch (AttributeError on a non-dict, pydantic
ValidationError).  The typed model keeps current_branch as a string option, so
a non-string junk value decodes to none where Python would store the raw
value unvalidated; no claim depends on that corner. -/
def load_state (file : LedgerFile) (now : Int) : Option VBMState :=
  match file with
  | .absent => some (bootstrapStore now)
  | .unparsable => some { branches := [], current_branch := none }
  | .parsed j => do
      let data ← j.asObj
      let bj ← ((dictFind? data "branches").getD (Json.obj [])).asObj
      let branches ← decodeBranches now bj
      let current := (match dictFind? data "current_branch" with
        | some (Json.str c) => some c
        | _ => none)
      pure { branches := branches, current_branch := current }

theorem metaVal_roundtrip (v : MetaVal) : MetaVal.fromJson (MetaVal.toJson v) = some v := by
  cases v <;> rfl

theorem decodeStrList_roundtrip (l : List String) :
    decodeStrList (l.map Json.str) = some l := by
  induction l with
  | nil => rfl
  | cons a rest ih => simp [decodeStrList, Json.asStr, ih]

theorem decodeMeta_roundtrip (m : List (String × MetaVal)) :
    decodeMeta (m.map (fun kv => (kv.1, kv.2.toJson))) = some m := by
  induction m with
  | nil => rfl
  | cons kv rest ih => simp [decodeMeta, metaVal_roundtrip, ih]

theorem commit_roundtrip (c : Commit) : Commit.from_dict (Commit.to_dict c) = some c := by
  unfold Commit.from_dict Commit.to_dict
  simp [Json.asObj, dictFind?, Json.asStr, Json.asNum, Json.asArr,
    decodeParentIds, decodeMetaField, decodeStrList_roundtrip, decodeMeta_roundtrip]

theorem decodeCommits_roundtrip (l : List Commit) :
    decodeCommits (l.map Commit.to_dict) = some l := by
  induction l with
  | nil => rfl
  | cons c rest ih => simp [decodeCommits, commit_roundtrip, ih]

theorem branch_roundtrip (b : VirtualBranch) (now : Int) :
    VirtualBranch.from_dict (VirtualBranch.to_dict b) now = some b := by
  unfold VirtualBranch.from_dict VirtualBranch.to_dict
  simp [Json.asObj, dictFind?, Json.asStr, Json.asNum, Json.asArr,
    decodeStrOr, decodeNumOr, decodeCommitsField, decodeCommits_roundtrip]

theorem decodeBranches_roundtrip (now : Int) (m : List (String × VirtualBranch)) :
    decodeBranches now (m.map (fun kv => (kv.1, kv.2.to_dict))) = some m := by
  induction m with
  | nil => rfl
  | cons kv rest ih => simp [decodeBranches, branch_roundtrip, ih]

/-- C2: saving a Branch Store and reloading it with no intervening mutation
yields a structurally equal store (same branch names, same ordered commits,
same field values), and a ledger file whose content fails to parse reloads as
the empty store: no branches and no current branch, with no exception raised
and no default main branch seeded. -/
theorem c2_persistence_roundtrip_and_corrupt_recovery (st : VBMState) (now : Int) :
    load_state (.parsed (save_state st)) now = some st ∧
    load_state .unparsable now = some { branches := [], current_branch := none } := by
  constructor
  · unfold load_state save_state
    cases hcb : st.current_branch with
    | none =>
        simp [Json.asObj, dictFind?, decodeBranches_roundtrip, hcb]
        rw [← hcb]
    | some c =>
        simp [Json.asObj, dictFind?, decodeBranches_roundtrip, hcb]
        rw [← hcb]
  · rfl

/-- One entry of repo.heads as get_status consults it: the optional
remote-tracking branch and the two commit-range counts, each an Except whose
error side stands for a raised exception (len of list(iter_commits(..))). -/
structure Head where
  tracking : Option String
  commits_ahead : Except String Nat
  commits_behind : Except String Nat

/-- The live repository queries get_status issues, each an Except whose error
side stands for a raised exception: untracked_files, index.diff(None) paths,
index.diff(HEAD) paths, and the heads lookup by branch name (which raises for
a name git does not know). -/
structure GitQueries where
  untracked_files : Except String (List String)
  diff_none : Except String (List String)
  diff_head : Except String (List String)
  heads_find : String → Except String Head

/-- The status dictionary get_status builds: defaults first, fields
overwritten one by one inside the try block, plus the error field the except
clause sets. -/
structure StatusRecord where
  current_branch : Option String
  untracked_files : List String
  changes_not_staged : List String
  changes_to_be_committed : List String
  ahead : Nat
  behind : Nat
  error : Option String
deriving DecidableEq, Repr

/-- Result of get_status: the sentinel dictionary for a missing repository, or
the status record. -/
inductive StatusResult where
  | notAGitRepo
  | status (r : StatusRecord)
deriving DecidableEq, Repr

/-- VirtualBranchManager.get_status.  The record starts with empty lists and
zero counts; the try block assigns untracked, unstaged and staged in that
order, then, when a current branch is set and its head has a tracking branch,
computes both range counts before assigning ahead and behind.  The first
raised exception stops the block and lands in the error field, keeping every
assignment already made; with no repository bound the sentinel is returned. -/
def get_status (repo : Option GitQueries) (current : Option String) : StatusResult :=
  match repo with
  | none => .notAGitRepo
  | some q =>
    let st0 : StatusRecord :=
      { current_branch := current, untracked_files := [], changes_not_staged := [],
        changes_to_be_committed := [], ahead := 0, behind := 0, error := none }
    match q.untracked_files with
    | .error e => .status { st0 with error := some e }
    | .ok u =>
      let st1 := { st0 with untracked_files := u }
      match q.diff_none with
      | .error e => .status { st1 with error := some e }
      | .ok ns =>
        let st2 := { st1 with changes_not_staged := ns }
        match q.diff_head with
        | .error e => .status { st2 with error := some e }
        | .ok tc =>
          let st3 := { st2 with changes_to_be_committed := tc }
          match current with
          | none => .status st3
          | some cb =>
            match q.heads_find cb with
            | .error e => .status { st3 with error := some e }
            | .ok head =>
              match head.tracking with
              | none => .status st3
              | some _ =>
                match head.commits_ahead with
                | .error e => .status { st3 with error := some e }
                | .ok a =>
                  match head.commits_behind with
                  | .error e => .status { st3 with error := some e }
                  | .ok b => .status { st3 with ahead := a, behind := b }

/-- The ahead/behind phase of get_status raises: either the heads lookup
itself raises, or a tracking branch exists and one of the two range counts
raises. -/
def aheadPhaseRaises (q : GitQueries) (cb : String) : Prop :=
  (∃ e, q.heads_find cb = .error e) ∨
  (∃ h, q.heads_find cb = .ok h ∧ h.tracking.isSome = true ∧
    ((∃ e, h.commits_ahead = .error e) ∨
      ((∃ a, h.commits_ahead = .ok a) ∧ (∃ e, h.commits_behind = .error e))))

/-- C8: the status query never aborts on an ahead/behind failure: whenever the
three set queries succeed and the ahead/behind computation raises, the result
still carries the untracked, unstaged and staged sets already computed, the
counts stay at their zero defaults, and the failure lands in the error
diagnostic field; with no repository bound, get_status returns the sentinel
result instead of raising. -/
theorem c8_status_degrades_gracefully (q : GitQueries) (cb : String)
    (u ns tc : List String)
    (hu : q.untracked_files = .ok u) (hns : q.diff_none = .ok ns)
    (htc : q.diff_head = .ok tc) (hab : aheadPhaseRaises q cb) :
    (∃ e, get_status (some q) (some cb) =
      .status { current_branch := some cb, untracked_files := u,
                changes_not_staged := ns, changes_to_be_committed := tc,
                ahead := 0, behind := 0, error := some e }) ∧
    (∀ cur, get_status none cur = .notAGitRepo) := by
  constructor
  · rcases hab with ⟨e, he⟩ | ⟨hd, hhd, htrk, hcnt⟩
    · exact ⟨e, by simp [get_status, hu, hns, htc, he]⟩
    · obtain ⟨t, ht⟩ := Option.isSome_iff_exists.mp htrk
      rcases hcnt with ⟨e, hae⟩ | ⟨⟨a, ha⟩, ⟨e, hbe⟩⟩
      · exact ⟨e, by simp [get_status, hu, hns, htc, hhd, ht, hae]⟩
      · exact ⟨e, by simp [get_status, hu, hns, htc, hhd, ht, ha, hbe]⟩
  · intro cur
    rfl

/-- Queries for the C8 witness: clean sets, and a heads lookup that raises. -/
def exQueriesC8 : GitQueries :=
  { untracked_files := .ok ["u.txt"], diff_none := .ok ["m.txt"],
    diff_head := .ok ["s.txt"],
    heads_find := fun _ => .error "no such head" }

/-- Witness for C8: with a raising heads lookup the three sets survive, the
counts stay zero and the failure is reported in the error field. -/
theorem c8_status_degrades_gracefully_witness :
    (∃ e, get_status (some exQueriesC8) (some "main") =
      .status { current_branch := some "main", untracked_files := ["u.txt"],
                changes_not_staged := ["m.txt"], changes_to_be_committed := ["s.txt"],
                ahead := 0, behind := 0, error := some e }) ∧
    (∀ cur, get_status none cur = .notAGitRepo) :=
  c8_status_degrades_gracefully exQueriesC8 "main" ["u.txt"] ["m.txt"] ["s.txt"]
    rfl rfl rfl (Or.inl ⟨"no such head", rfl⟩)

/-- Observable calls the push command makes on the real repository: the
read-only ls-remote probe of branch_exists_on_remote, and the transport push
of push_branch.  Both sites hardcode the remote origin. -/
inductive PushEffect where
  | lsRemote (remote branch : String)
  | gitPush (remote src dst : String) (force : Bool)
deriving DecidableEq, Repr

/-- True exactly for the transport push operation. -/
def PushEffect.isTransport : PushEffect → Bool
  | .gitPush _ _ _ _ => true
  | .lsRemote _ _ => false

/-- Remote-side behaviour the push command can observe: whether ls-remote
reports the branch (exceptions there are caught and read as false), and
whether the transport push succeeds. -/
structure PushRemote where
  remote_has_branch : String → Bool
  push_ok : Bool

/-- Everything the push command produces: exit code, the repository calls it
made in order, the ledger state it leaves behind, and the remote/branch pair
the dry-run message reports. -/
structure PushOutcome where
  exit : Nat
  effects : List PushEffect
  state : VBMState
  reported : Option (String × String)
deriving DecidableEq, Repr

/-- The push CLI command (src/app/commands/push.py): missing repository and
missing current branch exit early; the target branch is the argument or the
current branch; branch_exists_on_remote probes ls-remote before the dry-run
check; a dry run reports the intended remote/branch pair and stops; otherwise
push_branch runs the transport against origin and a failure exits 1. -/
def push_cli (st : VBMState) (repo : Option PushRemote) (force dry_run : Bool)
    (remote : String) (branch : Option String) : PushOutcome :=
  match repo with
  | none => { exit := 1, effects := [], state := st, reported := none }
  | some r =>
    match st.current_branch with
    | none => { exit := 1, effects := [], state := st, reported := none }
    | some current =>
      let target := branch.getD current
      let effs := [PushEffect.lsRemote "origin" target]
      if dry_run then
        { exit := 0, effects := effs, state := st, reported := some (remote, target) }
      else
        let effs2 := effs ++ [PushEffect.gitPush "origin" target target force]
        if r.push_ok then
          { exit := 0, effects := effs2, state := st, reported := none }
        else
          { exit := 1, effects := effs2, state := st, reported := none }

/-- C9: with the dry-run flag set the transport push is never invoked and the
ledger state is returned untouched, on every path; when a repository is bound
and a current branch exists, the command only reports the intended
remote/branch pair (the branch argument or the current branch) and exits 0. -/
theorem c9_dry_run_never_pushes (st : VBMState) (repo : Option PushRemote)
    (force : Bool) (remote : String) (branch : Option String) :
    ((push_cli st repo force true remote branch).effects.all
        (fun e => !e.isTransport) = true ∧
      (push_cli st repo force true remote branch).state = st) ∧
    (∀ r current, repo = some r → st.current_branch = some current →
      (push_cli st repo force true remote branch).reported =
          some (remote, branch.getD current) ∧
        (push_cli st repo force true remote branch).exit = 0) := by
  constructor
  · cases repo with
    | none => exact ⟨rfl, rfl⟩
    | some r =>
        cases hcb : st.current_branch with
        | none => simp [push_cli, hcb]
        | some current => simp [push_cli, hcb, PushEffect.isTransport]
  · intro r current hr hcb
    subst hr
    simp [push_cli, hcb]

/-- Witness for C9: a dry-run push on the bootstrapped store with an explicit
branch argument reports the pair and performs no transport push. -/
theorem c9_dry_run_never_pushes_witness :
    (push_cli (bootstrapStore 0) (some { remote_has_branch := fun _ => true, push_ok := true })
        false true "upstream" (some "feat")).reported = some ("upstream", "feat") ∧
    (push_cli (bootstrapStore 0) (some { remote_has_branch := fun _ => true, push_ok := true })
        false true "upstream" (some "feat")).exit = 0 :=
  (c9_dry_run_never_pushes (bootstrapStore 0)
      (some { remote_has_branch := fun _ => true, push_ok := true })
      false "upstream" (some "feat")).2
    { remote_has_branch := fun _ => true, push_ok := true } "main" rfl rfl

/-- Modelled from the spec: the Repository Binding of section 6 is the
external git engine, not code of this repository; its pending-change state is
the three path sets the binding enumerates (untrackedPaths,
diffWorkingTreeVsIndex, diffIndexVsHead). -/
structure GitFiles where
  untracked : List String
  unstaged : List String
  staged : List String
deriving DecidableEq, Repr

/-- Modelled from the spec: stagePaths of the Repository Binding contract
moves the named untracked and unstaged paths into the staged set. -/
def GitFiles.stage_paths (g : GitFiles) (paths : List String) : GitFiles :=
  { untracked := g.untracked.filter (fun p => !(paths.contains p)),
    unstaged := g.unstaged.filter (fun p => !(paths.contains p)),
    staged := g.staged ++ (g.untracked ++ g.unstaged).filter (fun p => paths.contains p) }

/-- Modelled from the spec: staging all working-tree changes (git add -A)
moves every untracked and unstaged path into the staged set. -/
def GitFiles.stage_all (g : GitFiles) : GitFiles :=
  { untracked := [], unstaged := [],
    staged := g.staged ++ g.untracked ++ g.unstaged }

/-- Empty pending-change state. -/
def emptyFiles : GitFiles :=
  { untracked := [], unstaged := [], staged := [] }

/-- Metadata of the real commit the Repository Binding produces for
index.commit: id, parents, dates and committer identity. -/
structure CommitInfo where
  hexsha : String
  parent_ids : List String
  committed_date : Int
  authored_date : Int
  committer_name : String
  committer_email : String
deriving DecidableEq, Repr

/-- The bound repository as the commit flow sees it: its pending-change sets,
its configured user identity, and the metadata of the commit index.commit will
produce. -/
structure CommitRepo where
  files : GitFiles
  user_name : String
  user_email : String
  next_commit : CommitInfo
deriving Repr

/-- Observable staging and commit calls the commit flow issues against the
real repository, in order: index.add(pathspec), git add -A, and index.commit
recording the staged set at commit time. -/
inductive StageEffect where
  | addPaths (paths : List String)
  | addAll
  | realCommit (message : String) (staged : List String)
deriving DecidableEq, Repr

/-- Everything VirtualBranchManager.create_commit produces: the optional
raised error, the ledger state, the repository pending-change state, the
repository calls made, and the returned Commit Record. -/
structure CommitResult where
  err : Option VGitErr
  state : VBMState
  files : GitFiles
  effects : List StageEffect
  commit : Option Commit
deriving DecidableEq, Repr

/-- Abort helper: an error raised before any repository call. -/
def commitAbort (e : VGitErr) (st : VBMState) (g : GitFiles) : CommitResult :=
  { err := some e, state := st, files := g, effects := [], commit := none }

/-- Body of create_commit once the current branch and the repository are both
known to be present: the no-pending-changes check (which inspects only
diff(None) and untracked_files, ignoring the staged set), then git add -A,
author resolution, index.commit, the mirrored Commit Record, and the append to
the current branch (keyErr models the uncaught Python KeyError when that
branch key is absent). -/
def create_commit_checked (st : VBMState) (r : CommitRepo) (current : String)
    (message : String) (author : Option (String × String)) (now : Int) : CommitResult :=
  if r.files.unstaged.isEmpty && r.files.untracked.isEmpty then
    commitAbort .noChangesToCommit st r.files
  else
    let files1 := r.files.stage_all
    let author2 := author.getD (r.user_name, r.user_email)
    let info := r.next_commit
    let files2 := { files1 with staged := ([] : List String) }
    let effs := [StageEffect.addAll, StageEffect.realCommit message files1.staged]
    let vc : Commit :=
      { id := info.hexsha, message := message, author := author2.1,
        timestamp := info.committed_date, parent_ids := info.parent_ids,
        metadata := [("git_commit", .s info.hexsha),
          ("committer", .s info.committer_name),
          ("committer_email", .s info.committer_email),
          ("authored_date", .n info.authored_date),
          ("committed_date", .n info.committed_date)] }
    match dictFind? st.branches current with
    | none =>
        { err := some .keyErr, state := st, files := files2, effects := effs,
          commit := none }
    | some br =>
        { err := none,
          state := { st with branches :=
            (dictInsert st.branches current (br.add_commit vc now)) },
          files := files2, effects := effs, commit := some vc }

/-- VirtualBranchManager.create_commit.  Checks in source order: a falsy
current branch (None or the empty string) raises noActiveBranch, a missing
repository raises notARepository, then the checked body runs. -/
def create_commit (st : VBMState) (repo : Option CommitRepo) (message : String)
    (author : Option (String × String)) (now : Int) : CommitResult :=
  match st.current_branch with
  | none => commitAbort .noActiveBranch st ((repo.map CommitRepo.files).getD emptyFiles)
  | some current =>
    if current = "" then
      commitAbort .noActiveBranch st ((repo.map CommitRepo.files).getD emptyFiles)
    else
      match repo with
      | none => commitAbort .notARepository st emptyFiles
      | some r => create_commit_checked st r current message author now

/-- Status queries backed by concrete pending-change sets: the three set
queries succeed with those sets, the heads lookup is given. -/
def GitQueries.ofFiles (g : GitFiles) (heads : String → Except String Head) : GitQueries :=
  { untracked_files := .ok g.untracked, diff_none := .ok g.unstaged,
    diff_head := .ok g.staged, heads_find := heads }

/-- Everything the commit CLI command produces: exit code, the VGitError its
except clause caught, final ledger state, repository pending-change state,
repository calls in order, and the created Commit Record. -/
structure CliCommitOutcome where
  exit : Nat
  err : Option VGitErr
  state : VBMState
  files : GitFiles
  effects : List StageEffect
  committed : Option Commit
deriving DecidableEq, Repr

/-- The optional pathspec staging step of the commit command: the updated
pending-change state and the index.add call it issues. -/
def cliStep1 (r : CommitRepo) (pathspec : List String) : GitFiles × List StageEffect :=
  if pathspec.isEmpty then (r.files, [])
  else (r.files.stage_paths pathspec, [StageEffect.addPaths pathspec])

/-- The changes_to_be_committed set the commit command reads from get_status
after the pathspec staging step. -/
def cliStagedSet (st : VBMState) (r : CommitRepo) (heads : String → Except String Head)
    (pathspec : List String) : List String :=
  match get_status (some (GitQueries.ofFiles (cliStep1 r pathspec).1 heads))
      st.current_branch with
  | .status rec => rec.changes_to_be_committed
  | .notAGitRepo => []

/-- Outcome assembly after create_commit ran: a VGitError caught by the
except clause exits 1, success exits 0 and reports the created record; either
way the effects trace is the pathspec staging followed by the create_commit
calls. -/
def cliFinish (step1 : GitFiles × List StageEffect) (res : CommitResult) : CliCommitOutcome :=
  match res.err with
  | some e =>
      { exit := 1, err := some e, state := res.state, files := res.files,
        effects := step1.2 ++ res.effects, committed := none }
  | none =>
      { exit := 0, err := none, state := res.state, files := res.files,
        effects := step1.2 ++ res.effects, committed := res.commit }

/-- Body of the commit command once the repository is present: an empty
message exits 1; the pathspec, when given, is staged with index.add;
get_status is consulted and an empty changes_to_be_committed set without the
allow-empty flag prints nothing-to-commit and exits 0 without committing;
otherwise create_commit runs on the updated pending-change state. -/
def commit_cli_repo (st : VBMState) (r : CommitRepo)
    (heads : String → Except String Head) (message : String) (allow_empty : Bool)
    (pathspec : List String) (now : Int) : CliCommitOutcome :=
  if message = "" then
    { exit := 1, err := none, state := st, files := r.files, effects := [],
      committed := none }
  else
    if (cliStagedSet st r heads pathspec).isEmpty && !allow_empty then
      { exit := 0, err := none, state := st, files := (cliStep1 r pathspec).1,
        effects := (cliStep1 r pathspec).2, committed := none }
    else
      cliFinish (cliStep1 r pathspec)
        (create_commit st (some { r with files := (cliStep1 r pathspec).1 })
          message none now)

/-- The commit CLI command (src/app/commands/commit.py), modelled from the
point where a commit message is available (the interactive editor and stdin
paths are out of scope): a missing repository exits 1, otherwise the body
runs. -/
def commit_cli (st : VBMState) (repo : Option CommitRepo)
    (heads : String → Except String Head) (message : String) (allow_empty : Bool)
    (pathspec : List String) (now : Int) : CliCommitOutcome :=
  match repo with
  | none =>
      { exit := 1, err := none, state := st, files := emptyFiles, effects := [],
        committed := none }
  | some r => commit_cli_repo st r heads message allow_empty pathspec now

/-- Heads function for commit-flow witnesses: no tracking branch anywhere. -/
def exHeads : String → Except String Head :=
  fun _ => .ok { tracking := none, commits_ahead := .ok 0, commits_behind := .ok 0 }

/-- Real-commit metadata used by the C4 examples. -/
def exInfoC4 : CommitInfo :=
  { hexsha := "c0", parent_ids := [], committed_date := 5,
    authored_date := 5, committer_name := "u", committer_email := "e" }

/-- Repository for the C4 failing input: a completely clean working tree. -/
def exRepoC4 : CommitRepo :=
  { files := emptyFiles, user_name := "u", user_email := "e", next_commit := exInfoC4 }

/-- Repository for the second C4 failing input: one staged path and nothing
else pending. -/
def exRepoC4b : CommitRepo :=
  { files := { untracked := [], unstaged := [], staged := ["s.txt"] },
    user_name := "u", user_email := "e", next_commit := exInfoC4 }

/-- C4: the code contradicts the claim at two concrete inputs.  With a clean
tree and the allow-empty flag set, the command still fails with
noChangesToCommit and appends nothing, because create_commit takes no
empty-commit override and its check fires whenever diff(None) and
untracked_files are both empty.  With a staged-only pending change and no
flag, the same check fires even though a pending change exists. -/
theorem c4_commit_empty_check_contradicts_claim :
    commit_cli (bootstrapStore 0) (some exRepoC4) exHeads "trigger deployment" true [] 9 =
      { exit := 1, err := some .noChangesToCommit, state := bootstrapStore 0,
        files := emptyFiles, effects := [], committed := none } ∧
    commit_cli (bootstrapStore 0) (some exRepoC4b) exHeads "staged only" false [] 9 =
      { exit := 1, err := some .noChangesToCommit, state := bootstrapStore 0,
        files := exRepoC4b.files, effects := [], committed := none } := by
  constructor
  · rfl
  · rfl

/-- Real-commit metadata used by the C5 examples. -/
def exInfoC5 : CommitInfo :=
  { hexsha := "c1", parent_ids := ["c0"], committed_date := 6,
    authored_date := 6, committer_name := "u", committer_email := "e" }

/-- Repository for the C5 counterexample: two modified unstaged paths. -/
def exRepoC5 : CommitRepo :=
  { files := { untracked := [], unstaged := ["a.txt", "b.txt"], staged := [] },
    user_name := "u", user_email := "e", next_commit := exInfoC5 }

/-- C5 counterexample: committing with the explicit pathspec a.txt stages and
commits b.txt as well, because create_commit always runs git add -A after the
pathspec staging; the real commit records both paths although only a.txt was
named. -/
theorem c5_counterexample_pathspec_not_exact :
    (commit_cli (bootstrapStore 0) (some exRepoC5) exHeads "m" false ["a.txt"] 9).effects =
      [.addPaths ["a.txt"], .addAll, .realCommit "m" ["a.txt", "b.txt"]] ∧
    ¬ ("b.txt" ∈ (["a.txt"] : List String)) := by
  constructor
  · rfl
  · simp

theorem create_commit_eq_abort_none (st : VBMState) (r : CommitRepo) (message : String)
    (author : Option (String × String)) (now : Int) (hcb : st.current_branch = none) :
    create_commit st (some r) message author now =
      commitAbort .noActiveBranch st r.files := by
  unfold create_commit
  rw [hcb]
  rfl

theorem create_commit_eq_abort_empty (st : VBMState) (r : CommitRepo) (message : String)
    (author : Option (String × String)) (now : Int) (hcb : st.current_branch = some "") :
    create_commit st (some r) message author now =
      commitAbort .noActiveBranch st r.files := by
  unfold create_commit
  rw [hcb]
  rfl

theorem create_commit_eq_checked (st : VBMState) (r : CommitRepo) (message : String)
    (author : Option (String × String)) (now : Int) (current : String)
    (hcb : st.current_branch = some current) (hcur : ¬ current = "") :
    create_commit st (some r) message author now =
      create_commit_checked st r current message author now := by
  unfold create_commit
  rw [hcb]
  show (if current = "" then
      commitAbort .noActiveBranch st ((Option.map CommitRepo.files (some r)).getD emptyFiles)
    else create_commit_checked st r current message author now) = _
  rw [if_neg hcur]

theorem create_commit_checked_ok_effects (st : VBMState) (r : CommitRepo)
    (current message : String) (author : Option (String × String)) (now : Int)
    (h : (create_commit_checked st r current message author now).err = none) :
    (create_commit_checked st r current message author now).effects =
      [StageEffect.addAll, StageEffect.realCommit message r.files.stage_all.staged] := by
  unfold create_commit_checked at h ⊢
  by_cases hchg : (r.files.unstaged.isEmpty && r.files.untracked.isEmpty) = true
  · rw [if_pos hchg] at h
    exact absurd h (by simp [commitAbort])
  · rw [if_neg hchg] at h ⊢
    cases hfind : dictFind? st.branches current with
    | none => rfl
    | some br => rfl

theorem cliFinish_effects (step1 : GitFiles × List StageEffect) (res : CommitResult) :
    (cliFinish step1 res).effects = step1.2 ++ res.effects := by
  unfold cliFinish
  cases hres : res.err with
  | some e => rfl
  | none => rfl

theorem cliFinish_committed_err (step1 : GitFiles × List StageEffect) (res : CommitResult)
    (h : (cliFinish step1 res).committed.isSome = true) : res.err = none := by
  unfold cliFinish at h
  cases hres : res.err with
  | some e =>
      rw [hres] at h
      simp at h
  | none => rfl

/-- C5 amended: whenever the commit command actually creates a commit, the
staging sequence is: the explicit pathspec, when given, is staged first via
index.add, and then create_commit stages all working-tree changes with git
add -A in every case, so the real commit records every pending path and not
only the pathspec; all changes are staged whether or not a pathspec was
given. -/
theorem c5_staging_characterization (st : VBMState) (r : CommitRepo)
    (heads : String → Except String Head) (message : String) (allow_empty : Bool)
    (pathspec : List String) (now : Int)
    (hdone : (commit_cli st (some r) heads message allow_empty pathspec now).committed.isSome
      = true) :
    (commit_cli st (some r) heads message allow_empty pathspec now).effects =
      (if pathspec.isEmpty then ([] : List StageEffect)
        else [StageEffect.addPaths pathspec]) ++
      [StageEffect.addAll,
        StageEffect.realCommit message
          ((if pathspec.isEmpty then r.files
            else r.files.stage_paths pathspec).stage_all.staged)] := by
  have hdone2 : (commit_cli_repo st r heads message allow_empty pathspec now).committed.isSome
      = true := hdone
  show (commit_cli_repo st r heads message allow_empty pathspec now).effects = _
  unfold commit_cli_repo at hdone2 ⊢
  by_cases hmsg : message = ""
  · rw [if_pos hmsg] at hdone2
    exact absurd hdone2 (by simp)
  · rw [if_neg hmsg] at hdone2 ⊢
    by_cases hskip : ((cliStagedSet st r heads pathspec).isEmpty && !allow_empty) = true
    · rw [if_pos hskip] at hdone2
      exact absurd hdone2 (by simp)
    · rw [if_neg hskip] at hdone2 ⊢
      rw [cliFinish_effects]
      have hres := cliFinish_committed_err (cliStep1 r pathspec)
        (create_commit st (some { r with files := (cliStep1 r pathspec).1 })
          message none now) hdone2
      have heff : (create_commit st (some { r with files := (cliStep1 r pathspec).1 })
          message none now).effects =
          [StageEffect.addAll,
            StageEffect.realCommit message (cliStep1 r pathspec).1.stage_all.staged] := by
        cases hcb : st.current_branch with
        | none =>
            rw [create_commit_eq_abort_none st _ message none now hcb] at hres
            exact absurd hres (by simp [commitAbort])
        | some current =>
            by_cases hcur : current = ""
            · rw [hcur] at hcb
              rw [create_commit_eq_abort_empty st _ message none now hcb] at hres
              exact absurd hres (by simp [commitAbort])
            · rw [create_commit_eq_checked st _ message none now current hcb hcur] at hres
              rw [create_commit_eq_checked st _ message none now current hcb hcur]
              exact create_commit_checked_ok_effects st _ current message none now hres
      rw [heff]
      by_cases hps : pathspec.isEmpty
      · simp [cliStep1, hps]
      · simp [cliStep1, hps]

/-- Witness for C5 amended at the counterexample input: pathspec a.txt is
staged first, then everything, and the commit records both pending paths. -/
theorem c5_staging_characterization_witness :
    (commit_cli (bootstrapStore 0) (some exRepoC5) exHeads "m" false ["a.txt"] 9).effects =
      (if (["a.txt"] : List String).isEmpty then ([] : List StageEffect)
        else [StageEffect.addPaths ["a.txt"]]) ++
      [StageEffect.addAll,
        StageEffect.realCommit "m"
          ((if (["a.txt"] : List String).isEmpty then exRepoC5.files
            else exRepoC5.files.stage_paths ["a.txt"]).stage_all.staged)] :=
  c5_staging_characterization (bootstrapStore 0) exRepoC5 exHeads "m" false ["a.txt"] 9
    (by decide)

end VGit
